import Mathlib

/-!
Shallow embedding of the meteofrance-api data models
(meteofrance_api/model/rain.py and meteofrance_api/model/snow.py).

Python `int` is modelled as `Int`, `str` as `String`, dictionaries as
association lists kept in insertion order (a Python dict never holds two
equal keys, assignment to an existing key keeps its position, assignment
to a fresh key appends), Python sets as insertion-ordered duplicate-free
lists, and fallible operations return `Except` or `Option`.
-/

namespace MeteoFrance

/-! ### Rain data model (rain.py) -/

structure ForecastData where
  time : Int
  rain_intensity : Int
  rain_intensity_description : String
deriving DecidableEq

structure Geometry where
  type : String
  coordinates : List Float

structure RainPropertiesData where
  altitude : Int
  name : String
  country : String
  french_department : String
  rain_product_available : Int
  timezone : String
  confidence : Int
  forecast : List ForecastData

structure RainData where
  update_time : Int
  type : String
  geometry : Geometry
  properties : RainPropertiesData

/-- The `Rain` wrapper: `__init__` stores the raw document unchanged. -/
structure Rain where
  raw_data : RainData

inductive TzError where
  | invalidTimezone
deriving DecidableEq

/-- A timezone-aware datetime value: the instant together with the zone
name, which determines the local wall-clock representation. -/
structure LocalDatetime where
  timestamp : Int
  tz : String
deriving DecidableEq

/-- Modelled from the spec: the helper `timestamp_to_dateime_with_locale_tz`
lives in meteofrance_api/helpers.py, which is not among the sources here.
Per the spec (TimeLocalizer), it converts an epoch timestamp plus a timezone
identifier string into a timezone-aware timestamp value and fails with
`InvalidTimezone` when the name is not a recognized zone identifier.  The
set of recognized identifiers is abstracted as the parameter `known_tz`. -/
def timestamp_to_dateime_with_locale_tz (known_tz : String → Bool)
    (timestamp : Int) (tz : String) : Except TzError LocalDatetime :=
  if known_tz tz then Except.ok ⟨timestamp, tz⟩
  else Except.error TzError.invalidTimezone

def Rain.timezone (r : Rain) : String :=
  r.raw_data.properties.timezone

def Rain.forecasts (r : Rain) : List ForecastData :=
  r.raw_data.properties.forecast

def Rain.altitude (r : Rain) : Int :=
  r.raw_data.properties.altitude

def Rain.location_name (r : Rain) : String :=
  r.raw_data.properties.name

def Rain.country (r : Rain) : String :=
  r.raw_data.properties.country

def Rain.french_department (r : Rain) : String :=
  r.raw_data.properties.french_department

def Rain.rain_product_available (r : Rain) : Int :=
  r.raw_data.properties.rain_product_available

def Rain.confidence (r : Rain) : Int :=
  r.raw_data.properties.confidence

def Rain.geometry (r : Rain) : Geometry :=
  r.raw_data.geometry

def Rain.timestamp_to_locale_time (known_tz : String → Bool) (r : Rain)
    (timestamp : Int) : Except TzError LocalDatetime :=
  timestamp_to_dateime_with_locale_tz known_tz timestamp r.timezone

def Rain.update_time (known_tz : String → Bool) (r : Rain) :
    Except TzError LocalDatetime :=
  r.timestamp_to_locale_time known_tz r.raw_data.update_time

/-- The loop body of `Rain.next_rain_date_locale`: each iteration first
localizes the entry's time (raising on an invalid timezone), then tests the
rain intensity against the dry sentinel 1. -/
def nextRainScan (known_tz : String → Bool) (r : Rain) :
    List ForecastData → Except TzError (Option LocalDatetime)
  | [] => Except.ok none
  | forecast :: rest =>
    match r.timestamp_to_locale_time known_tz forecast.time with
    | Except.error e => Except.error e
    | Except.ok forecast_time =>
      if forecast.rain_intensity > 1 then Except.ok (some forecast_time)
      else nextRainScan known_tz r rest

def Rain.next_rain_date_locale (known_tz : String → Bool) (r : Rain) :
    Except TzError (Option LocalDatetime) :=
  nextRainScan known_tz r r.forecasts

/-! ### Snow data model (snow.py) -/

structure Location where
  location_type : String
  value : String
deriving DecidableEq

structure AvalancheRiskPerLocation where
  avalanche_risk : Int
  risk_evolution : Option String
  location : Location
deriving DecidableEq

structure MassifAvalancheRisk where
  description : String
  avalanche_risk_max : Int
  time : String
  dangerous_exposition : List String
  avalanche_risk_per_location : List AvalancheRiskPerLocation
deriving DecidableEq

structure SnowDepth where
  altitude : Int
  date : String
  value : Int
deriving DecidableEq

structure FreshSnowPerExposition where
  time : String
  exposition : String
  fresh_snow_depth : List SnowDepth
deriving DecidableEq

structure TotalSnowPerExposition where
  time : String
  exposition : String
  snow_limit : Int
  total_snow_depth : List SnowDepth
deriving DecidableEq

structure SnowPropertiesData where
  massif_name : String
  massif_altitude_min : Int
  massif_altitude_max : Int
  massif_avalanche_risk : MassifAvalancheRisk
  fresh_snow_per_exposition : List FreshSnowPerExposition
  avalanche_report : String
  total_snow_per_exposition : List TotalSnowPerExposition
deriving DecidableEq

structure SnowData where
  type : String
  update_time : String
  properties : SnowPropertiesData
deriving DecidableEq

/-- The `Snow` wrapper: `__init__` stores the raw document unchanged. -/
structure Snow where
  raw_data : SnowData
deriving DecidableEq

/-! ### Python dictionaries as insertion-ordered association lists -/

/-- Assignment `d[k] = v` on a Python dict: an existing key keeps its
position and gets the new value, a fresh key is appended at the end. -/
def dictInsert {κ α : Type} [DecidableEq κ] (k : κ) (v : α) :
    List (κ × α) → List (κ × α)
  | [] => [(k, v)]
  | p :: rest => if p.1 = k then (k, v) :: rest else p :: dictInsert k v rest

/-- Lookup `d.get(k)` on a Python dict. -/
def dlookup {κ α : Type} [DecidableEq κ] (k : κ) :
    List (κ × α) → Option α
  | [] => none
  | p :: rest => if p.1 = k then some p.2 else dlookup k rest

/-- The key sequence of a dict. -/
def dkeys {κ α : Type} (d : List (κ × α)) : List κ :=
  d.map Prod.fst

/-! ### Snow wrapper methods -/

def Snow.get_massif_name (s : Snow) : String :=
  s.raw_data.properties.massif_name

def Snow.get_max_avalanche_risk (s : Snow) : Int :=
  s.raw_data.properties.massif_avalanche_risk.avalanche_risk_max

/-- Inner loop of `get_snow_depth_at_altitude`: first record of this
exposition whose altitude equals the query. -/
def findDepthIn (altitude : Int) : List SnowDepth → Option Int
  | [] => none
  | depth :: rest =>
    if depth.altitude = altitude then some depth.value
    else findDepthIn altitude rest

/-- Outer loop of `get_snow_depth_at_altitude` over the expositions. -/
def findDepthAcrossExpositions (altitude : Int) :
    List TotalSnowPerExposition → Option Int
  | [] => none
  | snow_depth_info :: rest =>
    match findDepthIn altitude snow_depth_info.total_snow_depth with
    | some v => some v
    | none => findDepthAcrossExpositions altitude rest

def Snow.get_snow_depth_at_altitude (s : Snow) (altitude : Int) : Option Int :=
  findDepthAcrossExpositions altitude s.raw_data.properties.total_snow_per_exposition

/-- Adding one element to the altitude set (`altitudes.add(...)`), the set
being modelled as an insertion-ordered duplicate-free list. -/
def setAdd (altitudes : List Int) (a : Int) : List Int :=
  if a ∈ altitudes then altitudes else altitudes ++ [a]

/-- The loops of `get_available_altitudes`, collecting every altitude into
the set. -/
def collectAltitudes (l : List TotalSnowPerExposition) : List Int :=
  l.foldl
    (fun acc exposition =>
      exposition.total_snow_depth.foldl
        (fun acc depth_info => setAdd acc depth_info.altitude) acc)
    []

def Snow.get_available_altitudes (s : Snow) : List Int :=
  (collectAltitudes s.raw_data.properties.total_snow_per_exposition).mergeSort
    (fun a b => decide (a ≤ b))

/-- Loop of `get_avalanche_risk_by_location_value`: first entry whose
location value equals the query. -/
def findRiskByValue (location_value : String) :
    List AvalancheRiskPerLocation → Option Int
  | [] => none
  | risk :: rest =>
    if risk.location.value = location_value then some risk.avalanche_risk
    else findRiskByValue location_value rest

def Snow.get_avalanche_risk_by_location_value (s : Snow)
    (location_value : String) : Option Int :=
  findRiskByValue location_value
    s.raw_data.properties.massif_avalanche_risk.avalanche_risk_per_location

/-- One row of the `get_snow_depths` result. -/
structure SnowDepthRecord where
  exposition : String
  altitude : Int
  total_snow_depth : Int
deriving DecidableEq

def Snow.get_snow_depths (s : Snow) : List SnowDepthRecord :=
  s.raw_data.properties.total_snow_per_exposition.foldl
    (fun snow_depth_list exposition_data =>
      exposition_data.total_snow_depth.foldl
        (fun snow_depth_list depth_data =>
          snow_depth_list ++
            [⟨exposition_data.exposition, depth_data.altitude, depth_data.value⟩])
        snow_depth_list)
    []

def Snow.get_snow_limits (s : Snow) : List (String × Int) :=
  s.raw_data.properties.total_snow_per_exposition.foldl
    (fun snow_limits exposition_data =>
      dictInsert exposition_data.exposition exposition_data.snow_limit snow_limits)
    []

def Snow.get_avalanche_risks (s : Snow) : List (String × Int) :=
  s.raw_data.properties.massif_avalanche_risk.avalanche_risk_per_location.foldl
    (fun risks_map risk => dictInsert risk.location.value risk.avalanche_risk risks_map)
    []

/-- Inner loop body of `get_fresh_snow`: reads the per-date inner dict
(defaulting to an empty one appended under the date when absent), stores the
value under the `(altitude, exposition)` key, and writes the inner dict
back under the date. -/
def freshSnowStep (fresh_snow_map : List (String × List ((Int × String) × Int)))
    (exposition : String) (snow_depth : SnowDepth) :
    List (String × List ((Int × String) × Int)) :=
  let inner := (dlookup snow_depth.date fresh_snow_map).getD []
  dictInsert snow_depth.date
    (dictInsert (snow_depth.altitude, exposition) snow_depth.value inner)
    fresh_snow_map

def Snow.get_fresh_snow (s : Snow) : List (String × List ((Int × String) × Int)) :=
  s.raw_data.properties.fresh_snow_per_exposition.foldl
    (fun fresh_snow_map exposition_data =>
      exposition_data.fresh_snow_depth.foldl
        (fun fresh_snow_map snow_depth =>
          freshSnowStep fresh_snow_map exposition_data.exposition snow_depth)
        fresh_snow_map)
    []

/-! ### Derived measures used in the statements about the snow wrapper -/

/-- Abbreviation for the exposition list traversed by the total-snow
queries. -/
def totalSnow (s : Snow) : List TotalSnowPerExposition :=
  s.raw_data.properties.total_snow_per_exposition

/-- Abbreviation for the avalanche-risk entry list. -/
def riskLocations (s : Snow) : List AvalancheRiskPerLocation :=
  s.raw_data.properties.massif_avalanche_risk.avalanche_risk_per_location

/-- Total number of leaf values in a two-level fresh-snow mapping. -/
def freshSnowLeafCount (m : List (String × List ((Int × String) × Int))) : Nat :=
  (m.map (fun entry => entry.2.length)).sum

/-- Total number of fresh-snow depth records across all expositions. -/
def Snow.freshSnowRecordCount (s : Snow) : Nat :=
  (s.raw_data.properties.fresh_snow_per_exposition.map
    (fun exposition_data => exposition_data.fresh_snow_depth.length)).sum

/-- The `(date, (altitude, exposition))` key of every fresh-snow record, in
document order. -/
def Snow.freshSnowKeys (s : Snow) : List (String × (Int × String)) :=
  s.raw_data.properties.fresh_snow_per_exposition.flatMap
    (fun exposition_data =>
      exposition_data.fresh_snow_depth.map
        (fun snow_depth =>
          (snow_depth.date, (snow_depth.altitude, exposition_data.exposition))))

/-- The inner loop body of `get_fresh_snow` expressed on a single record
carrying its date, its `(altitude, exposition)` key and its value. -/
def freshRunStep (fresh_snow_map : List (String × List ((Int × String) × Int)))
    (t : String × ((Int × String) × Int)) :
    List (String × List ((Int × String) × Int)) :=
  let inner := (dlookup t.1 fresh_snow_map).getD []
  dictInsert t.1 (dictInsert t.2.1 t.2.2 inner) fresh_snow_map

/-- Every fresh-snow record flattened into a (date, (key, value)) triple,
in document order. -/
def freshRecords (l : List FreshSnowPerExposition) :
    List (String × ((Int × String) × Int)) :=
  l.flatMap (fun exposition_data =>
    exposition_data.fresh_snow_depth.map
      (fun snow_depth =>
        (snow_depth.date, ((snow_depth.altitude, exposition_data.exposition),
          snow_depth.value))))

/-- A (date, key) pair is present in a two-level dict when looking up the
date yields an inner dict holding the key. -/
def pairMem (fresh_snow_map : List (String × List ((Int × String) × Int)))
    (p : String × (Int × String)) : Prop :=
  ∃ inner, dlookup p.1 fresh_snow_map = some inner ∧ p.2 ∈ dkeys inner

/-! ### Dynamic-document model: construction and key access -/

/-- A JSON-like dynamic value, the shape the raw Python documents actually
have before any typing is assumed. -/
inductive JVal where
  | jnull
  | jint (n : Int)
  | jstr (s : String)
  | jarr (items : List JVal)
  | jobj (fields : List (String × JVal))

inductive DocError where
  | missingKey (k : String)
  | typeMismatch
deriving DecidableEq

/-- Python subscripting `doc[k]`: a `KeyError` on a missing key of an
object, a `TypeError` when the subscripted value is not an object. -/
def objGet : JVal → String → Except DocError JVal
  | JVal.jobj fields, k =>
    match fields.find? (fun p => p.1 == k) with
    | some p => Except.ok p.2
    | none => Except.error (DocError.missingKey k)
  | _, _ => Except.error DocError.typeMismatch

/-- `Rain.__init__` over the dynamic document: it only stores the
document. -/
structure RainDyn where
  raw_data : JVal

def RainDyn.init (raw_data : JVal) : RainDyn :=
  ⟨raw_data⟩

/-- The `Rain.altitude` accessor over the dynamic document, reading
`raw_data["properties"]["altitude"]`. -/
def RainDyn.altitude (r : RainDyn) : Except DocError JVal :=
  match objGet r.raw_data "properties" with
  | Except.error e => Except.error e
  | Except.ok properties => objGet properties "altitude"

/-- `Snow.__init__` over the dynamic document: it only stores the
document. -/
structure SnowDyn where
  raw_data : JVal

def SnowDyn.init (raw_data : JVal) : SnowDyn :=
  ⟨raw_data⟩

/-- The `Snow.get_massif_name` accessor over the dynamic document, reading
`raw_data["properties"]["massif_name"]`. -/
def SnowDyn.get_massif_name (s : SnowDyn) : Except DocError JVal :=
  match objGet s.raw_data "properties" with
  | Except.error e => Except.error e
  | Except.ok properties => objGet properties "massif_name"

/-! ### Method-call model: object state across a sequence of calls -/

inductive RainOp where
  | opUpdateTime
  | opGeometry
  | opAltitude
  | opLocationName
  | opCountry
  | opFrenchDepartment
  | opRainProductAvailable
  | opTimezone
  | opConfidence
  | opForecasts
  | opTimestampToLocaleTime (timestamp : Int)
  | opNextRainDateLocale

inductive RainAnswer where
  | ansInt (n : Int)
  | ansStr (s : String)
  | ansGeometry (g : Geometry)
  | ansForecasts (l : List ForecastData)
  | ansTime (t : Except TzError LocalDatetime)
  | ansNextRain (t : Except TzError (Option LocalDatetime))

/-- One method call on a `Rain` object: the state of the object after the
call, paired with the returned value.  Each branch is the corresponding
method body; none of them assigns to the object, so each returns the state
it received. -/
def applyRainOp (known_tz : String → Bool) (op : RainOp) (r : Rain) :
    Rain × RainAnswer :=
  match op with
  | RainOp.opUpdateTime => (r, RainAnswer.ansTime (r.update_time known_tz))
  | RainOp.opGeometry => (r, RainAnswer.ansGeometry r.geometry)
  | RainOp.opAltitude => (r, RainAnswer.ansInt r.altitude)
  | RainOp.opLocationName => (r, RainAnswer.ansStr r.location_name)
  | RainOp.opCountry => (r, RainAnswer.ansStr r.country)
  | RainOp.opFrenchDepartment => (r, RainAnswer.ansStr r.french_department)
  | RainOp.opRainProductAvailable => (r, RainAnswer.ansInt r.rain_product_available)
  | RainOp.opTimezone => (r, RainAnswer.ansStr r.timezone)
  | RainOp.opConfidence => (r, RainAnswer.ansInt r.confidence)
  | RainOp.opForecasts => (r, RainAnswer.ansForecasts r.forecasts)
  | RainOp.opTimestampToLocaleTime t =>
    (r, RainAnswer.ansTime (r.timestamp_to_locale_time known_tz t))
  | RainOp.opNextRainDateLocale =>
    (r, RainAnswer.ansNextRain (r.next_rain_date_locale known_tz))

inductive SnowOp where
  | opMassifName
  | opMaxAvalancheRisk
  | opSnowDepthAtAltitude (altitude : Int)
  | opAvailableAltitudes
  | opAvalancheRiskByLocationValue (location_value : String)
  | opSnowDepths
  | opSnowLimits
  | opAvalancheRisks
  | opFreshSnow

inductive SnowAnswer where
  | ansStr (s : String)
  | ansInt (n : Int)
  | ansOptInt (v : Option Int)
  | ansInts (l : List Int)
  | ansDepths (l : List SnowDepthRecord)
  | ansDict (d : List (String × Int))
  | ansFresh (m : List (String × List ((Int × String) × Int)))

/-- One method call on a `Snow` object, analogous to `applyRainOp`. -/
def applySnowOp (op : SnowOp) (s : Snow) : Snow × SnowAnswer :=
  match op with
  | SnowOp.opMassifName => (s, SnowAnswer.ansStr s.get_massif_name)
  | SnowOp.opMaxAvalancheRisk => (s, SnowAnswer.ansInt s.get_max_avalanche_risk)
  | SnowOp.opSnowDepthAtAltitude a =>
    (s, SnowAnswer.ansOptInt (s.get_snow_depth_at_altitude a))
  | SnowOp.opAvailableAltitudes => (s, SnowAnswer.ansInts s.get_available_altitudes)
  | SnowOp.opAvalancheRiskByLocationValue v =>
    (s, SnowAnswer.ansOptInt (s.get_avalanche_risk_by_location_value v))
  | SnowOp.opSnowDepths => (s, SnowAnswer.ansDepths s.get_snow_depths)
  | SnowOp.opSnowLimits => (s, SnowAnswer.ansDict s.get_snow_limits)
  | SnowOp.opAvalancheRisks => (s, SnowAnswer.ansDict s.get_avalanche_risks)
  | SnowOp.opFreshSnow => (s, SnowAnswer.ansFresh s.get_fresh_snow)

/-- The object state left by a sequence of `Rain` method calls. -/
def runRainOps (known_tz : String → Bool) (ops : List RainOp) (r : Rain) : Rain :=
  ops.foldl (fun st op => (applyRainOp known_tz op st).1) r

/-- The object state left by a sequence of `Snow` method calls. -/
def runSnowOps (ops : List SnowOp) (s : Snow) : Snow :=
  ops.foldl (fun st op => (applySnowOp op st).1) s

/-! ### Concrete example documents -/

/-- The recognized-timezone set used by the concrete examples: exactly the
zone Europe/Paris. -/
def parisOnly : String → Bool :=
  fun tz => tz == "Europe/Paris"

/-- The rain document of the spec's concrete scenario: the fifth forecast
entry, at epoch 1702569300, is the first one with rain intensity above 1. -/
def exampleRainDoc : Rain :=
  ⟨⟨1702567200, "Feature", ⟨"Point", []⟩,
    ⟨76, "Meudon", "FR - France", "92", 1, "Europe/Paris", 0,
      [⟨1702568100, 1, "Temps sec"⟩, ⟨1702568400, 1, "Temps sec"⟩,
       ⟨1702568700, 1, "Temps sec"⟩, ⟨1702569000, 1, "Temps sec"⟩,
       ⟨1702569300, 2, "Pluie faible"⟩, ⟨1702569600, 3, "Pluie"⟩]⟩⟩⟩

/-- A rain document whose timezone field is not a recognized zone
identifier and whose forecast entries are all dry. -/
def exampleRainDocBadTz : Rain :=
  ⟨⟨1702567200, "Feature", ⟨"Point", []⟩,
    ⟨76, "Meudon", "FR - France", "92", 1, "Mars/Olympus", 0,
      [⟨1702568100, 1, "Temps sec"⟩, ⟨1702568400, 1, "Temps sec"⟩]⟩⟩⟩

/-- A snow document with two fresh-snow records sharing date, altitude and
exposition. -/
def exampleSnowDupFresh : Snow :=
  ⟨⟨"Feature", "2023-12-14", ⟨"Vercors", 1000, 2500,
    ⟨"RAS", 2, "2023-12-14", [], []⟩,
    [⟨"2023-12-14", "N", [⟨1000, "2023-12-14", 5⟩, ⟨1000, "2023-12-14", 7⟩]⟩],
    "report", []⟩⟩⟩

/-- A snow document whose fresh-snow records carry pairwise distinct
(date, altitude, exposition) triples. -/
def exampleSnowFresh : Snow :=
  ⟨⟨"Feature", "2023-12-14", ⟨"Vercors", 1000, 2500,
    ⟨"RAS", 2, "2023-12-14", [], []⟩,
    [⟨"2023-12-14", "N", [⟨1000, "d1", 5⟩, ⟨2000, "d1", 7⟩]⟩,
     ⟨"2023-12-14", "S", [⟨1000, "d2", 3⟩]⟩],
    "report", []⟩⟩⟩

/-! ### Lemmas about the rain forecast scan -/

/-- When the document's timezone is recognized, the scan returns the first
entry with rain intensity above 1, localized, and absence when there is no
such entry. -/
theorem nextRainScan_of_known_tz (known_tz : String → Bool) (r : Rain)
    (h : known_tz r.timezone = true) (l : List ForecastData) :
    nextRainScan known_tz r l =
      Except.ok ((l.find? (fun f => decide (1 < f.rain_intensity))).map
        (fun f => ⟨f.time, r.timezone⟩)) := by
  induction l with
  | nil => rfl
  | cons f rest ih =>
    by_cases hf : 1 < f.rain_intensity
    · simp [nextRainScan, Rain.timestamp_to_locale_time,
        timestamp_to_dateime_with_locale_tz, h, hf,
        List.find?_cons, decide_eq_true hf]
    · simp [nextRainScan, Rain.timestamp_to_locale_time,
        timestamp_to_dateime_with_locale_tz, h, hf,
        List.find?_cons, decide_eq_false hf, ih]

/-- On a non-empty forecast list with an unrecognized timezone, the scan
propagates the localization error. -/
theorem nextRainScan_of_unknown_tz (known_tz : String → Bool) (r : Rain)
    (h : known_tz r.timezone = false) (f : ForecastData) (rest : List ForecastData) :
    nextRainScan known_tz r (f :: rest) = Except.error TzError.invalidTimezone := by
  simp [nextRainScan, Rain.timestamp_to_locale_time,
    timestamp_to_dateime_with_locale_tz, h]

/-! ### Lemmas about the snow lookups -/

theorem findRiskByValue_eq_find? (location_value : String)
    (l : List AvalancheRiskPerLocation) :
    findRiskByValue location_value l =
      (l.find? (fun risk => decide (risk.location.value = location_value))).map
        (fun risk => risk.avalanche_risk) := by
  induction l with
  | nil => rfl
  | cons risk rest ih =>
    by_cases hv : risk.location.value = location_value
    · simp [findRiskByValue, hv, List.find?_cons, decide_eq_true hv]
    · simp [findRiskByValue, hv, List.find?_cons, decide_eq_false hv, ih]

theorem findDepthIn_eq_find? (altitude : Int) (l : List SnowDepth) :
    findDepthIn altitude l =
      (l.find? (fun depth => decide (depth.altitude = altitude))).map
        (fun depth => depth.value) := by
  induction l with
  | nil => rfl
  | cons depth rest ih =>
    by_cases ha : depth.altitude = altitude
    · simp [findDepthIn, ha, List.find?_cons, decide_eq_true ha]
    · simp [findDepthIn, ha, List.find?_cons, decide_eq_false ha, ih]

/-- The nested depth search: it selects the first exposition containing the
altitude, then the first matching record of that exposition. -/
theorem findDepthAcrossExpositions_eq (altitude : Int)
    (l : List TotalSnowPerExposition) :
    findDepthAcrossExpositions altitude l =
      ((l.find? (fun info =>
          info.total_snow_depth.any (fun depth => decide (depth.altitude = altitude)))).bind
        (fun info =>
          (info.total_snow_depth.find? (fun depth => decide (depth.altitude = altitude))).map
            (fun depth => depth.value))) := by
  induction l with
  | nil => rfl
  | cons info rest ih =>
    by_cases hc : info.total_snow_depth.any (fun depth => decide (depth.altitude = altitude)) = true
    · have hsome : (info.total_snow_depth.find?
          (fun depth => decide (depth.altitude = altitude))).isSome = true := by
        rw [List.find?_isSome]
        simpa using List.any_eq_true.mp hc
      obtain ⟨d, hd⟩ := Option.isSome_iff_exists.mp hsome
      simp [findDepthAcrossExpositions, findDepthIn_eq_find?, List.find?_cons, hc, hd]
    · have hcf : info.total_snow_depth.any
          (fun depth => decide (depth.altitude = altitude)) = false := by
        simpa using hc
      have hnone : info.total_snow_depth.find?
          (fun depth => decide (depth.altitude = altitude)) = none := by
        rw [List.find?_eq_none]
        intro x hx hpx
        exact hc (List.any_eq_true.mpr ⟨x, hx, hpx⟩)
      simp [findDepthAcrossExpositions, findDepthIn_eq_find?, List.find?_cons,
        hcf, hnone, ih]

/-- The nested depth search returns no value exactly when no record of any
exposition carries the queried altitude. -/
theorem findDepthAcrossExpositions_eq_none_iff (altitude : Int)
    (l : List TotalSnowPerExposition) :
    findDepthAcrossExpositions altitude l = none ↔
      ∀ info ∈ l, ∀ depth ∈ info.total_snow_depth, depth.altitude ≠ altitude := by
  induction l with
  | nil => simp [findDepthAcrossExpositions]
  | cons info rest ih =>
    cases hfi : findDepthIn altitude info.total_snow_depth with
    | some v =>
      rw [findDepthAcrossExpositions, hfi]
      constructor
      · intro h
        exact absurd h (Option.some_ne_none v)
      · intro h
        rw [findDepthIn_eq_find?] at hfi
        obtain ⟨d, hd⟩ := Option.map_eq_some'.mp hfi
        have hpd := List.find?_some hd.1
        have hdm := List.mem_of_find?_eq_some hd.1
        exact absurd (of_decide_eq_true hpd)
          (h info (List.mem_cons_self info rest) d hdm)
    | none =>
      rw [findDepthAcrossExpositions, hfi, ih]
      constructor
      · intro h e he d hd
        rcases List.mem_cons.mp he with he | he
        · subst he
          intro hda
          rw [findDepthIn_eq_find?] at hfi
          have hfn : (e.total_snow_depth.find?
              (fun depth => decide (depth.altitude = altitude))) = none :=
            Option.map_eq_none'.mp hfi
          rw [List.find?_eq_none] at hfn
          exact hfn d hd (decide_eq_true hda)
        · exact h e he d hd
      · intro h e he d hd
        exact h e (List.mem_cons_of_mem info he) d hd

/-! ### Lemmas about the dict model -/

theorem dlookup_dictInsert {κ α : Type} [DecidableEq κ] (k k' : κ) (v : α)
    (d : List (κ × α)) :
    dlookup k' (dictInsert k v d) = if k' = k then some v else dlookup k' d := by
  induction d with
  | nil =>
    by_cases h : k = k'
    · simp [dictInsert, dlookup, h]
    · simp [dictInsert, dlookup, h, Ne.symm h]
  | cons p rest ih =>
    by_cases hp : p.1 = k
    · by_cases h : k' = k
      · subst h
        simp [dictInsert, dlookup, hp]
      · simp [dictInsert, dlookup, hp, h, Ne.symm h]
    · by_cases h : p.1 = k'
      · have hk : k' ≠ k := fun hh => hp (h.trans hh)
        simp [dictInsert, dlookup, hp, h, hk]
      · simp [dictInsert, dlookup, hp, h, ih]

theorem dkeys_dictInsert {κ α : Type} [DecidableEq κ] (k : κ) (v : α)
    (d : List (κ × α)) :
    dkeys (dictInsert k v d) = if k ∈ dkeys d then dkeys d else dkeys d ++ [k] := by
  induction d with
  | nil => simp [dictInsert, dkeys]
  | cons p rest ih =>
    by_cases hp : p.1 = k
    · simp [dictInsert, dkeys, hp]
    · simp only [dkeys] at ih ⊢
      by_cases hm : k ∈ List.map Prod.fst rest <;>
        simp [dictInsert, hp, ih, hm, Ne.symm hp]

theorem mem_dkeys_dictInsert {κ α : Type} [DecidableEq κ] (k k' : κ) (v : α)
    (d : List (κ × α)) :
    k' ∈ dkeys (dictInsert k v d) ↔ k' ∈ dkeys d ∨ k' = k := by
  rw [dkeys_dictInsert]
  by_cases hm : k ∈ dkeys d
  · simp only [hm, if_true]
    constructor
    · exact Or.inl
    · rintro (h | rfl)
      · exact h
      · exact hm
  · simp [hm]

theorem length_dictInsert {κ α : Type} [DecidableEq κ] (k : κ) (v : α)
    (d : List (κ × α)) :
    (dictInsert k v d).length = if k ∈ dkeys d then d.length else d.length + 1 := by
  induction d with
  | nil => simp [dictInsert, dkeys]
  | cons p rest ih =>
    by_cases hp : p.1 = k
    · simp [dictInsert, dkeys, hp]
    · simp only [dkeys] at ih ⊢
      by_cases hm : k ∈ List.map Prod.fst rest <;>
        simp [dictInsert, hp, ih, hm, Ne.symm hp]

theorem dlookup_isSome_iff_mem_dkeys {κ α : Type} [DecidableEq κ] (k : κ)
    (d : List (κ × α)) :
    (dlookup k d).isSome = true ↔ k ∈ dkeys d := by
  induction d with
  | nil => simp [dlookup, dkeys]
  | cons p rest ih =>
    by_cases hp : p.1 = k
    · simp [dlookup, dkeys, hp]
    · simp [dlookup, dkeys, hp, ih, Ne.symm hp]

/-! ### Lemmas about the avalanche-risk mapping -/

/-- The dict built by `get_avalanche_risks` answers every lookup with the
risk of the last matching entry. -/
theorem dlookup_avalanche_risks_fold (l : List AvalancheRiskPerLocation) (v : String) :
    dlookup v (l.foldl (fun risks_map risk =>
        dictInsert risk.location.value risk.avalanche_risk risks_map) []) =
      (l.reverse.find? (fun risk => decide (risk.location.value = v))).map
        (fun risk => risk.avalanche_risk) := by
  induction l using List.reverseRecOn with
  | nil => rfl
  | append_singleton l risk ih =>
    rw [List.foldl_append, List.foldl_cons, List.foldl_nil, dlookup_dictInsert,
      List.reverse_append]
    by_cases hv : risk.location.value = v
    · simp [List.find?_cons, decide_eq_true hv, hv]
    · have hv2 : ¬ v = risk.location.value := fun h => hv h.symm
      simp [List.find?_cons, decide_eq_false hv, hv2, ih]

/-- The key sequence built by `get_avalanche_risks` is duplicate-free and
holds exactly the location values of the source entries. -/
theorem dkeys_avalanche_risks_fold (l : List AvalancheRiskPerLocation) :
    (dkeys (l.foldl (fun risks_map risk =>
        dictInsert risk.location.value risk.avalanche_risk risks_map) [])).Nodup ∧
      ∀ v : String, v ∈ dkeys (l.foldl (fun risks_map risk =>
          dictInsert risk.location.value risk.avalanche_risk risks_map) []) ↔
        v ∈ l.map (fun risk => risk.location.value) := by
  induction l using List.reverseRecOn with
  | nil => simp [dkeys]
  | append_singleton l risk ih =>
    rw [List.foldl_append, List.foldl_cons, List.foldl_nil]
    constructor
    · rw [dkeys_dictInsert]
      by_cases hm : risk.location.value ∈
          dkeys (l.foldl (fun risks_map risk =>
            dictInsert risk.location.value risk.avalanche_risk risks_map) [])
      · simpa [hm] using ih.1
      · simp only [hm, if_false]
        rw [List.nodup_append]
        exact ⟨ih.1, List.nodup_singleton _, by simpa using hm⟩
    · intro v
      rw [mem_dkeys_dictInsert, ih.2 v]
      simp [or_comm]

/-- Two duplicate-free lists with the same members have the same length. -/
theorem length_eq_of_nodup_of_mem_iff {α : Type} [DecidableEq α]
    {l₁ l₂ : List α} (h₁ : l₁.Nodup) (h₂ : l₂.Nodup)
    (h : ∀ x, x ∈ l₁ ↔ x ∈ l₂) : l₁.length = l₂.length := by
  rw [← List.toFinset_card_of_nodup h₁, ← List.toFinset_card_of_nodup h₂]
  congr 1
  ext x
  simpa using h x

/-! ### Lemmas about the altitude set -/

theorem mem_setAdd (acc : List Int) (a x : Int) :
    x ∈ setAdd acc a ↔ x ∈ acc ∨ x = a := by
  by_cases hm : a ∈ acc
  · simp only [setAdd, hm, if_true]
    constructor
    · exact Or.inl
    · rintro (h | rfl)
      · exact h
      · exact hm
  · simp [setAdd, hm]

theorem nodup_setAdd (acc : List Int) (a : Int) (h : acc.Nodup) :
    (setAdd acc a).Nodup := by
  by_cases hm : a ∈ acc
  · simpa [setAdd, hm] using h
  · simp only [setAdd, hm, if_false]
    rw [List.nodup_append]
    exact ⟨h, List.nodup_singleton a, by simpa using hm⟩

theorem mem_foldl_setAdd (l : List SnowDepth) (acc : List Int) (x : Int) :
    x ∈ l.foldl (fun acc depth_info => setAdd acc depth_info.altitude) acc ↔
      x ∈ acc ∨ ∃ d ∈ l, d.altitude = x := by
  induction l generalizing acc with
  | nil => simp
  | cons d rest ih =>
    rw [List.foldl_cons, ih, mem_setAdd]
    constructor
    · rintro ((h | h) | h)
      · exact Or.inl h
      · exact Or.inr ⟨d, List.mem_cons_self d rest, h.symm⟩
      · obtain ⟨e, he, hx⟩ := h
        exact Or.inr ⟨e, List.mem_cons_of_mem d he, hx⟩
    · rintro (h | ⟨e, he, hx⟩)
      · exact Or.inl (Or.inl h)
      · rcases List.mem_cons.mp he with rfl | he
        · exact Or.inl (Or.inr hx.symm)
        · exact Or.inr ⟨e, he, hx⟩

theorem nodup_foldl_setAdd (l : List SnowDepth) (acc : List Int)
    (h : acc.Nodup) :
    (l.foldl (fun acc depth_info => setAdd acc depth_info.altitude) acc).Nodup := by
  induction l generalizing acc with
  | nil => exact h
  | cons d rest ih => exact ih _ (nodup_setAdd acc d.altitude h)

theorem mem_collect_fold (l : List TotalSnowPerExposition) (acc : List Int) (x : Int) :
    x ∈ l.foldl (fun acc exposition =>
        exposition.total_snow_depth.foldl
          (fun acc depth_info => setAdd acc depth_info.altitude) acc) acc ↔
      x ∈ acc ∨ ∃ e ∈ l, ∃ d ∈ e.total_snow_depth, d.altitude = x := by
  induction l generalizing acc with
  | nil => simp
  | cons e rest ih =>
    rw [List.foldl_cons, ih, mem_foldl_setAdd]
    constructor
    · rintro ((h | h) | h)
      · exact Or.inl h
      · exact Or.inr ⟨e, List.mem_cons_self e rest, h⟩
      · obtain ⟨e', he', hd⟩ := h
        exact Or.inr ⟨e', List.mem_cons_of_mem e he', hd⟩
    · rintro (h | ⟨e', he', hd⟩)
      · exact Or.inl (Or.inl h)
      · rcases List.mem_cons.mp he' with rfl | he'
        · exact Or.inl (Or.inr hd)
        · exact Or.inr ⟨e', he', hd⟩

theorem nodup_collect_fold (l : List TotalSnowPerExposition) (acc : List Int)
    (h : acc.Nodup) :
    (l.foldl (fun acc exposition =>
        exposition.total_snow_depth.foldl
          (fun acc depth_info => setAdd acc depth_info.altitude) acc) acc).Nodup := by
  induction l generalizing acc with
  | nil => exact h
  | cons e rest ih => exact ih _ (nodup_foldl_setAdd _ acc h)

theorem mem_collectAltitudes (l : List TotalSnowPerExposition) (x : Int) :
    x ∈ collectAltitudes l ↔ ∃ e ∈ l, ∃ d ∈ e.total_snow_depth, d.altitude = x := by
  rw [collectAltitudes, mem_collect_fold]
  simp

theorem nodup_collectAltitudes (l : List TotalSnowPerExposition) :
    (collectAltitudes l).Nodup :=
  nodup_collect_fold l [] (List.nodup_nil)

/-! ### Lemmas about the fresh-snow index -/

theorem foldl_flatMap_eq {α β γ : Type} (f : γ → β → γ) (g : α → List β)
    (l : List α) (init : γ) :
    (l.flatMap g).foldl f init = l.foldl (fun m e => (g e).foldl f m) init := by
  induction l generalizing init with
  | nil => rfl
  | cons e rest ih =>
    rw [List.flatMap_cons, List.foldl_append, List.foldl_cons, ih]

/-- `get_fresh_snow` is the fold of the single-record step over the
flattened record sequence. -/
theorem get_fresh_snow_eq_foldl (s : Snow) :
    s.get_fresh_snow =
      (freshRecords s.raw_data.properties.fresh_snow_per_exposition).foldl
        freshRunStep [] := by
  rw [Snow.get_fresh_snow, freshRecords, foldl_flatMap_eq]
  congr 1
  funext m exposition_data
  rw [List.foldl_map]
  rfl

theorem freshSnowLeafCount_cons (p : String × List ((Int × String) × Int))
    (l : List (String × List ((Int × String) × Int))) :
    freshSnowLeafCount (p :: l) = p.2.length + freshSnowLeafCount l := by
  simp [freshSnowLeafCount]

theorem freshSnowLeafCount_dictInsert_none
    (m : List (String × List ((Int × String) × Int))) (k : String)
    (v : List ((Int × String) × Int)) (h : dlookup k m = none) :
    freshSnowLeafCount (dictInsert k v m) = freshSnowLeafCount m + v.length := by
  induction m with
  | nil => simp [dictInsert, freshSnowLeafCount]
  | cons p rest ih =>
    rw [dlookup] at h
    by_cases hp : p.1 = k
    · rw [if_pos hp] at h
      cases h
    · rw [if_neg hp] at h
      rw [show dictInsert k v (p :: rest) = p :: dictInsert k v rest from by
        simp [dictInsert, hp]]
      rw [freshSnowLeafCount_cons, freshSnowLeafCount_cons, ih h]
      omega

theorem freshSnowLeafCount_dictInsert_some
    (m : List (String × List ((Int × String) × Int))) (k : String)
    (v w : List ((Int × String) × Int)) (h : dlookup k m = some w) :
    freshSnowLeafCount (dictInsert k v m) + w.length =
      freshSnowLeafCount m + v.length := by
  induction m with
  | nil => simp [dlookup] at h
  | cons p rest ih =>
    rw [dlookup] at h
    by_cases hp : p.1 = k
    · rw [if_pos hp] at h
      injection h with h
      subst h
      rw [show dictInsert k v (p :: rest) = (k, v) :: rest from by
        simp [dictInsert, hp]]
      rw [freshSnowLeafCount_cons, freshSnowLeafCount_cons]
      dsimp only
      omega
    · rw [if_neg hp] at h
      rw [show dictInsert k v (p :: rest) = p :: dictInsert k v rest from by
        simp [dictInsert, hp]]
      rw [freshSnowLeafCount_cons, freshSnowLeafCount_cons]
      have := ih h
      omega

/-- One record inserts exactly its own (date, key) pair into the index. -/
theorem pairMem_freshRunStep (m : List (String × List ((Int × String) × Int)))
    (t : String × ((Int × String) × Int)) (p : String × (Int × String)) :
    pairMem (freshRunStep m t) p ↔
      pairMem m p ∨ (p.1 = t.1 ∧ p.2 = t.2.1) := by
  rcases p with ⟨pd, pk⟩
  rcases t with ⟨td, tk, tv⟩
  unfold pairMem freshRunStep
  rw [dlookup_dictInsert]
  by_cases hd : pd = td
  · subst hd
    rw [if_pos rfl]
    cases hl : dlookup pd m with
    | none => simp [hl, mem_dkeys_dictInsert, dictInsert, dkeys]
    | some w => simp [hl, mem_dkeys_dictInsert]
  · rw [if_neg hd]
    simp [hd]

theorem freshSnowLeafCount_step_of_pairMem
    (m : List (String × List ((Int × String) × Int)))
    (t : String × ((Int × String) × Int)) (h : pairMem m (t.1, t.2.1)) :
    freshSnowLeafCount (freshRunStep m t) = freshSnowLeafCount m := by
  obtain ⟨w, hw, hk⟩ := h
  have hrw : freshRunStep m t = dictInsert t.1 (dictInsert t.2.1 t.2.2 w) m := by
    unfold freshRunStep
    rw [hw]
    rfl
  rw [hrw]
  have hsome := freshSnowLeafCount_dictInsert_some m t.1
    (dictInsert t.2.1 t.2.2 w) w hw
  have hlen : (dictInsert t.2.1 t.2.2 w).length = w.length := by
    rw [length_dictInsert, if_pos hk]
  omega

theorem freshSnowLeafCount_step_of_not_pairMem
    (m : List (String × List ((Int × String) × Int)))
    (t : String × ((Int × String) × Int)) (h : ¬ pairMem m (t.1, t.2.1)) :
    freshSnowLeafCount (freshRunStep m t) = freshSnowLeafCount m + 1 := by
  cases hl : dlookup t.1 m with
  | none =>
    have hrw : freshRunStep m t = dictInsert t.1 (dictInsert t.2.1 t.2.2 []) m := by
      unfold freshRunStep
      rw [hl]
      rfl
    rw [hrw, freshSnowLeafCount_dictInsert_none m t.1 (dictInsert t.2.1 t.2.2 []) hl]
    rfl
  | some w =>
    have hrw : freshRunStep m t = dictInsert t.1 (dictInsert t.2.1 t.2.2 w) m := by
      unfold freshRunStep
      rw [hl]
      rfl
    rw [hrw]
    have hks : t.2.1 ∉ dkeys w := fun hk => h ⟨w, hl, hk⟩
    have hlen : (dictInsert t.2.1 t.2.2 w).length = w.length + 1 := by
      rw [length_dictInsert, if_neg hks]
    have hsome := freshSnowLeafCount_dictInsert_some m t.1
      (dictInsert t.2.1 t.2.2 w) w hl
    omega

/-- Folding records whose (date, key) pairs are pairwise distinct and all
absent from the starting index adds exactly one leaf per record. -/
theorem freshRun_leafCount (l : List (String × ((Int × String) × Int)))
    (m : List (String × List ((Int × String) × Int)))
    (hn : (l.map (fun t => (t.1, t.2.1))).Nodup)
    (hdisj : ∀ t ∈ l, ¬ pairMem m (t.1, t.2.1)) :
    freshSnowLeafCount (l.foldl freshRunStep m) =
      freshSnowLeafCount m + l.length := by
  revert hn hdisj
  induction l generalizing m with
  | nil =>
    intro hn hdisj
    simp
  | cons t rest ih =>
    intro hn hdisj
    rw [List.map_cons, List.nodup_cons] at hn
    rw [List.foldl_cons]
    have h1 := freshSnowLeafCount_step_of_not_pairMem m t
      (hdisj t (List.mem_cons_self t rest))
    have h2 : ∀ t' ∈ rest, ¬ pairMem (freshRunStep m t) (t'.1, t'.2.1) := by
      intro t' ht' hmem
      rcases (pairMem_freshRunStep m t (t'.1, t'.2.1)).mp hmem with hm | hp
      · exact hdisj t' (List.mem_cons_of_mem t ht') hm
      · apply hn.1
        have hpair : (t'.1, t'.2.1) = (t.1, t.2.1) := Prod.ext hp.1 hp.2
        rw [← hpair]
        exact List.mem_map_of_mem (fun t => (t.1, t.2.1)) ht'
    rw [ih (freshRunStep m t) hn.2 h2, h1, List.length_cons]
    omega

theorem freshSnowKeys_eq_map (s : Snow) :
    s.freshSnowKeys =
      (freshRecords s.raw_data.properties.fresh_snow_per_exposition).map
        (fun t => (t.1, t.2.1)) := by
  rw [Snow.freshSnowKeys, freshRecords, List.map_flatMap]
  congr 1
  funext exposition_data
  rw [List.map_map]
  rfl

theorem freshSnowRecordCount_eq_length (s : Snow) :
    s.freshSnowRecordCount =
      (freshRecords s.raw_data.properties.fresh_snow_per_exposition).length := by
  rw [Snow.freshSnowRecordCount, freshRecords, List.length_flatMap]
  simp [Function.comp_def]

/-! ### Claim theorems about the rain wrapper -/

/-- C1: for every rain document whose timezone field is a recognized zone,
`next_rain_date_locale` scans the forecast sequence in its given order and
returns the localized time, in the document's own timezone, of the first
entry whose rain intensity strictly exceeds 1; it returns an absent result
when no entry qualifies or the sequence is empty. -/
theorem next_rain_date_locale_first_rain (known_tz : String → Bool) (r : Rain)
    (h : known_tz r.timezone = true) :
    r.next_rain_date_locale known_tz =
        Except.ok ((r.forecasts.find? (fun f => decide (1 < f.rain_intensity))).map
          (fun f => ⟨f.time, r.timezone⟩)) ∧
      (r.next_rain_date_locale known_tz = Except.ok none ↔
        ∀ f ∈ r.forecasts, ¬ 1 < f.rain_intensity) := by
  have heq := nextRainScan_of_known_tz known_tz r h r.forecasts
  constructor
  · exact heq
  · rw [show r.next_rain_date_locale known_tz = _ from heq]
    simp [Option.map_eq_none', List.find?_eq_none]

/-- Witness: the spec's concrete scenario, where the fifth forecast entry
at epoch 1702569300 is the first one with rain intensity above 1. -/
theorem next_rain_date_locale_first_rain_witness :
    parisOnly exampleRainDoc.timezone = true ∧
      exampleRainDoc.next_rain_date_locale parisOnly =
        Except.ok (some ⟨1702569300, "Europe/Paris"⟩) := by
  refine ⟨by decide, ?_⟩
  rw [(next_rain_date_locale_first_rain parisOnly exampleRainDoc (by decide)).1]
  rfl

/-- C10: on a non-empty forecast sequence the scan localizes an entry's
time before testing that entry's rain intensity, so an unrecognized
timezone makes the call fail with the localization error — even when every
entry is dry — instead of returning the absent result. -/
theorem next_rain_date_locale_unknown_tz (known_tz : String → Bool) (r : Rain)
    (h1 : r.forecasts ≠ []) (h2 : known_tz r.timezone = false) :
    r.next_rain_date_locale known_tz = Except.error TzError.invalidTimezone := by
  cases hl : r.forecasts with
  | nil => exact absurd hl h1
  | cons f rest =>
    have hrun : r.next_rain_date_locale known_tz = nextRainScan known_tz r (f :: rest) := by
      rw [Rain.next_rain_date_locale, hl]
    rw [hrun, nextRainScan_of_unknown_tz known_tz r h2 f rest]

/-- Witness: a document with an unrecognized timezone and only dry entries
fails with the localization error rather than returning the absent
result. -/
theorem next_rain_date_locale_unknown_tz_witness :
    exampleRainDocBadTz.forecasts ≠ [] ∧
      parisOnly exampleRainDocBadTz.timezone = false ∧
      exampleRainDocBadTz.next_rain_date_locale parisOnly =
        Except.error TzError.invalidTimezone :=
  ⟨by decide, by decide,
    next_rain_date_locale_unknown_tz parisOnly exampleRainDocBadTz (by decide) (by decide)⟩

/-! ### Claim theorems about the snow lookups -/

/-- C3: `get_snow_depth_at_altitude` returns the value of the first depth
record whose altitude equals the query exactly, taken from the first
exposition in document order that contains the altitude, and an absent
result when no exposition's total-snow records contain it. -/
theorem get_snow_depth_at_altitude_first (s : Snow) (altitude : Int) :
    s.get_snow_depth_at_altitude altitude =
        (((totalSnow s).find? (fun info =>
            info.total_snow_depth.any (fun depth => decide (depth.altitude = altitude)))).bind
          (fun info =>
            (info.total_snow_depth.find? (fun depth => decide (depth.altitude = altitude))).map
              (fun depth => depth.value))) ∧
      (s.get_snow_depth_at_altitude altitude = none ↔
        ∀ info ∈ totalSnow s, ∀ depth ∈ info.total_snow_depth, depth.altitude ≠ altitude) :=
  ⟨findDepthAcrossExpositions_eq altitude (totalSnow s),
   findDepthAcrossExpositions_eq_none_iff altitude (totalSnow s)⟩

/-- C6: `get_avalanche_risk_by_location_value` returns the avalanche risk
of the first entry whose location value equals the query exactly, and an
absent result — not an exception — when no entry matches. -/
theorem get_avalanche_risk_by_location_value_first (s : Snow) (location_value : String) :
    s.get_avalanche_risk_by_location_value location_value =
        ((riskLocations s).find? (fun risk => decide (risk.location.value = location_value))).map
          (fun risk => risk.avalanche_risk) ∧
      (s.get_avalanche_risk_by_location_value location_value = none ↔
        ∀ risk ∈ riskLocations s, risk.location.value ≠ location_value) := by
  have heq := findRiskByValue_eq_find? location_value (riskLocations s)
  constructor
  · exact heq
  · rw [show s.get_avalanche_risk_by_location_value location_value = _ from heq]
    simp [Option.map_eq_none', List.find?_eq_none]

/-- C4: `get_available_altitudes` returns a strictly ascending,
duplicate-free sequence holding exactly the altitude values occurring in
any exposition's total-snow records, also for documents whose altitude
records are repeated or unordered. -/
theorem get_available_altitudes_sorted_complete (s : Snow) :
    (s.get_available_altitudes).Pairwise (· < ·) ∧
      ∀ a : Int, a ∈ s.get_available_altitudes ↔
        ∃ e ∈ totalSnow s, ∃ d ∈ e.total_snow_depth, d.altitude = a := by
  have hperm := List.mergeSort_perm
    (collectAltitudes s.raw_data.properties.total_snow_per_exposition)
    (fun a b => decide (a ≤ b))
  have hnodup : (s.get_available_altitudes).Nodup :=
    hperm.nodup_iff.mpr (nodup_collectAltitudes _)
  have hsorted : List.Sorted (· ≤ ·) (s.get_available_altitudes) :=
    List.sorted_mergeSort' _
  constructor
  · exact hsorted.lt_of_le hnodup
  · intro a
    rw [show (a ∈ s.get_available_altitudes ↔
        a ∈ collectAltitudes s.raw_data.properties.total_snow_per_exposition) from
      hperm.mem_iff]
    exact mem_collectAltitudes _ a

/-- C5: `get_avalanche_risks` maps every occurring location value — and
nothing else — to the avalanche risk of the last entry bearing that value,
and its size is the number of distinct location values in the source
sequence. -/
theorem get_avalanche_risks_last_and_size (s : Snow) :
    (∀ v : String, v ∈ dkeys (s.get_avalanche_risks) ↔
        v ∈ (riskLocations s).map (fun risk => risk.location.value)) ∧
      (∀ v : String, dlookup v (s.get_avalanche_risks) =
        ((riskLocations s).reverse.find?
            (fun risk => decide (risk.location.value = v))).map
          (fun risk => risk.avalanche_risk)) ∧
      (s.get_avalanche_risks).length =
        ((riskLocations s).map (fun risk => risk.location.value)).dedup.length := by
  refine ⟨(dkeys_avalanche_risks_fold (riskLocations s)).2, ?_, ?_⟩
  · intro v
    exact dlookup_avalanche_risks_fold (riskLocations s) v
  · have hkeys := dkeys_avalanche_risks_fold (riskLocations s)
    have hlen : (dkeys (s.get_avalanche_risks)).length =
        ((riskLocations s).map (fun risk => risk.location.value)).dedup.length := by
      refine length_eq_of_nodup_of_mem_iff hkeys.1 (List.nodup_dedup _) ?_
      intro v
      rw [List.mem_dedup]
      exact hkeys.2 v
    rw [← hlen, dkeys, List.length_map]

/-- C9: `get_snow_depth_at_altitude` answers with a present value exactly
for the altitudes listed by `get_available_altitudes`, both queries ranging
over the same total-snow records. -/
theorem snow_depth_isSome_iff_available (s : Snow) (a : Int) :
    (s.get_snow_depth_at_altitude a).isSome = true ↔
      a ∈ s.get_available_altitudes := by
  have h1 : s.get_snow_depth_at_altitude a = none ↔
      ∀ info ∈ totalSnow s, ∀ depth ∈ info.total_snow_depth,
        depth.altitude ≠ a :=
    findDepthAcrossExpositions_eq_none_iff a (totalSnow s)
  have h2 : a ∈ s.get_available_altitudes ↔
      ∃ e ∈ totalSnow s, ∃ d ∈ e.total_snow_depth, d.altitude = a := by
    rw [show (a ∈ s.get_available_altitudes ↔
        a ∈ collectAltitudes s.raw_data.properties.total_snow_per_exposition) from
      (List.mergeSort_perm _ _).mem_iff]
    exact mem_collectAltitudes _ a
  rw [Option.isSome_iff_ne_none, h2, ne_eq, h1]
  push_neg
  rfl

/-! ### Claim theorems about the fresh-snow index -/

/-- Counterexample to the unconditional leaf-count claim: with two records
sharing date, altitude and exposition, the later record overwrites the
earlier one, so the index holds fewer leaves than there are records. -/
theorem fresh_snow_leaf_count_cex :
    freshSnowLeafCount exampleSnowDupFresh.get_fresh_snow ≠
      exampleSnowDupFresh.freshSnowRecordCount := by
  decide

/-- C2 (amended): the two-level mapping of `get_fresh_snow` holds exactly
one leaf per fresh-snow record provided the records' (date, altitude,
exposition) triples are pairwise distinct; a duplicate triple overwrites
its earlier record. -/
theorem get_fresh_snow_leaf_count (s : Snow) (h : s.freshSnowKeys.Nodup) :
    freshSnowLeafCount s.get_fresh_snow = s.freshSnowRecordCount := by
  rw [freshSnowKeys_eq_map] at h
  rw [get_fresh_snow_eq_foldl, freshSnowRecordCount_eq_length]
  have hmain := freshRun_leafCount
    (freshRecords s.raw_data.properties.fresh_snow_per_exposition) [] h ?_
  · simpa [freshSnowLeafCount] using hmain
  · intro t ht hmem
    obtain ⟨inner, hin, _⟩ := hmem
    simp [dlookup] at hin

/-- Witness: a document with three records carrying pairwise distinct
(date, altitude, exposition) triples indexes all three values. -/
theorem get_fresh_snow_leaf_count_witness :
    exampleSnowFresh.freshSnowKeys.Nodup ∧
      freshSnowLeafCount exampleSnowFresh.get_fresh_snow =
        exampleSnowFresh.freshSnowRecordCount :=
  ⟨by decide, get_fresh_snow_leaf_count exampleSnowFresh (by decide)⟩

/-! ### Claim theorems about construction and mutation -/

/-- C7: constructing a `Rain` or `Snow` wrapper stores any dynamic
document, with no validation; reading a field under an absent key fails
with the missing-key error only when that accessor runs. -/
theorem construction_defers_validation :
    (∀ j : JVal, (RainDyn.init j).raw_data = j) ∧
      (∀ j : JVal, (SnowDyn.init j).raw_data = j) ∧
      (∀ fields : List (String × JVal),
        fields.find? (fun p => p.1 == "properties") = none →
          (RainDyn.init (JVal.jobj fields)).altitude =
              Except.error (DocError.missingKey "properties") ∧
            (SnowDyn.init (JVal.jobj fields)).get_massif_name =
              Except.error (DocError.missingKey "properties")) := by
  refine ⟨fun j => rfl, fun j => rfl, ?_⟩
  intro fields hf
  constructor
  · simp [RainDyn.altitude, RainDyn.init, objGet, hf]
  · simp [SnowDyn.get_massif_name, SnowDyn.init, objGet, hf]

/-- Witness: the empty object is accepted at construction, and the
accessors fail with the missing-key error when invoked on it. -/
theorem construction_defers_validation_witness :
    (RainDyn.init (JVal.jobj [])).raw_data = JVal.jobj [] ∧
      (RainDyn.init (JVal.jobj [])).altitude =
        Except.error (DocError.missingKey "properties") ∧
      (SnowDyn.init (JVal.jobj [])).get_massif_name =
        Except.error (DocError.missingKey "properties") :=
  ⟨construction_defers_validation.1 (JVal.jobj []),
    (construction_defers_validation.2.2 [] rfl).1,
    (construction_defers_validation.2.2 [] rfl).2⟩

/-- C8: no method call of either wrapper changes the object, so after any
sequence of calls the wrapped raw document is the one supplied at
construction. -/
theorem wrappers_never_mutate (known_tz : String → Bool) (r : Rain) (s : Snow)
    (rain_ops : List RainOp) (snow_ops : List SnowOp) :
    (runRainOps known_tz rain_ops r).raw_data = r.raw_data ∧
      (runSnowOps snow_ops s).raw_data = s.raw_data := by
  have hrstep : ∀ (op : RainOp) (st : Rain), (applyRainOp known_tz op st).1 = st := by
    intro op st
    cases op <;> rfl
  have hsstep : ∀ (op : SnowOp) (st : Snow), (applySnowOp op st).1 = st := by
    intro op st
    cases op <;> rfl
  constructor
  · have hrun : ∀ (ops : List RainOp) (st : Rain), runRainOps known_tz ops st = st := by
      intro ops
      induction ops with
      | nil => intro st; rfl
      | cons op rest ih =>
        intro st
        show runRainOps known_tz rest (applyRainOp known_tz op st).1 = st
        rw [hrstep op st]
        exact ih st
    rw [hrun rain_ops r]
  · have hrun : ∀ (ops : List SnowOp) (st : Snow), runSnowOps ops st = st := by
      intro ops
      induction ops with
      | nil => intro st; rfl
      | cons op rest ih =>
        intro st
        show runSnowOps rest (applySnowOp op st).1 = st
        rw [hsstep op st]
        exact ih st
    rw [hrun snow_ops s]

end MeteoFrance
